import Mathlib

/-!
Verification of the `lrcmd` command-execution library.

Shallow embedding of the Python sources `lrcmd/core.py`, `lrcmd/exceptions.py`,
`lrcmd/local.py`, `lrcmd/remote.py` and `lrcmd/__init__.py`.

Modelling conventions:
- A Python `SimpleNamespace` result is the record `Result`; the dynamically
  added attributes `processed`, `attempts` and `repeat_messages` are `Option`
  fields, `none` while unset.
- Raising an exception is returning `.error e : Except LrcmdError _`; the
  exception classes of `exceptions.py` are the constructors of `LrcmdError`.
  `FailedCommand.__init__` stores `result` (default `None`) on the exception,
  modelled by the `Option Result` argument of the four failed-command
  constructors. The `error_log` side effect writes text to an external sink
  and is not part of the returned data, so it is not modelled.
- The external world (a child process, a remote channel) is an explicit
  oracle argument; `time.sleep` calls are recorded in an output list.
- Machine details: exit codes are `Int`, durations are `Nat` seconds.
-/

namespace Lrcmd

/-- The result object of one command execution (`types.SimpleNamespace` as
populated by `LocalCommand.execute` / `RemoteCommand.execute`, plus the
attributes `execute_repeat` adds on success). -/
structure Result where
  stdout : String := ""
  stderr : String := ""
  returncode : Int := 0
  processed : Option String := none
  attempts : Option Nat := none
  repeat_messages : Option String := none
deriving DecidableEq, Repr

/-- The exception classes of `lrcmd/exceptions.py` (the four `FailedCommand`
subclasses each carry the optional `result` stored by `FailedCommand.__init__`)
together with the built-in Python exceptions the package can raise
(`TypeError` from `LocalCommand.__init__`, `ValueError` from `shlex.split`)
and a catch-all for any other `Exception` (e.g. one raised by a
post-processor). -/
inductive LrcmdError where
  | nonZeroReturnCode (msg : String) (result : Option Result)
  | stderr (msg : String) (result : Option Result)
  | commandTimedOut (msg : String) (result : Option Result)
  | repeatedExecutionFailed (msg : String) (result : Option Result)
  | typeError (msg : String)
  | valueError (msg : String)
  | otherError (msg : String)
deriving DecidableEq, Repr

/-- The `result` attribute stored by `FailedCommand.__init__` (`None` for the
built-in exceptions, which have no such attribute). -/
def LrcmdError.resultOf : LrcmdError → Option Result
  | .nonZeroReturnCode _ r => r
  | .stderr _ r => r
  | .commandTimedOut _ r => r
  | .repeatedExecutionFailed _ r => r
  | .typeError _ => none
  | .valueError _ => none
  | .otherError _ => none

/-- `type(e).__name__`, as used in the log lines of `execute_repeat`. -/
def LrcmdError.typeName : LrcmdError → String
  | .nonZeroReturnCode _ _ => "NonZeroReturnCode"
  | .stderr _ _ => "Stderr"
  | .commandTimedOut _ _ => "CommandTimedOut"
  | .repeatedExecutionFailed _ _ => "RepeatedExecutionFailed"
  | .typeError _ => "TypeError"
  | .valueError _ => "ValueError"
  | .otherError _ => "Exception"

/-- `str(e)`: the message of the exception. -/
def LrcmdError.message : LrcmdError → String
  | .nonZeroReturnCode m _ => m
  | .stderr m _ => m
  | .commandTimedOut m _ => m
  | .repeatedExecutionFailed m _ => m
  | .typeError m => m
  | .valueError m => m
  | .otherError m => m

/-- The message built in `CommandBase.process_output` for a nonzero exit code:
`f"\n  {type(self).__name__} '{self.command}'\n  yields nonzero exit code:
{self.result.returncode}\n  stderr: {self.result.stderr}"`. -/
def nonzero_msg (tyName command : String) (r : Result) : String :=
  "\n  " ++ tyName ++ " '" ++ command ++ "'\n  yields nonzero exit code: "
    ++ toString r.returncode ++ "\n  stderr: " ++ r.stderr

/-- The message built in `CommandBase.process_output` for output on stderr:
`f"\n  {type(self).__name__} '{self.command}'\n  yields output on stderr:
\n{self.result.stderr}"`. -/
def stderr_msg (tyName command : String) (r : Result) : String :=
  "\n  " ++ tyName ++ " '" ++ command ++ "'\n  yields output on stderr: \n"
    ++ r.stderr

/-- `CommandBase.process_output` (`core.py`). `tyName` is
`type(self).__name__` and `command` the formatted `self.command`, both only
used in messages. Python's two sequential `if` statements behave as a chain
because `raise` leaves the function. -/
def process_output (tyName command : String) (r : Result)
    (post_processor : Option (String → String)) (check stderr_is_error : Bool) :
    Except LrcmdError Result :=
  if check ∧ r.returncode ≠ 0 then
    .error (.nonZeroReturnCode (nonzero_msg tyName command r) (some r))
  else if stderr_is_error ∧ r.stderr ≠ "" then
    .error (.stderr (stderr_msg tyName command r) (some r))
  else
    match post_processor with
    | some f => .ok { r with processed := some (f r.stdout) }
    | none => .ok r

/-- C4: `process_output` applies its checks in a fixed order with first
failure winning: with `check` on and a nonzero return code it raises
`NonZeroReturnCode` (message naming the command, the exit code and stderr,
result attached) regardless of the stderr flag or content; otherwise with
`stderr_is_error` on and non-empty stderr it raises `Stderr`; otherwise a
supplied post-processor is applied to stdout and stored in `processed`, and
with no post-processor the result is returned as is. -/
theorem c4_process_output_order (tyName command : String) (r : Result)
    (pp : Option (String → String)) (check sie : Bool) :
    (check = true → r.returncode ≠ 0 →
      process_output tyName command r pp check sie =
        .error (.nonZeroReturnCode (nonzero_msg tyName command r) (some r)))
    ∧ ((check = true → r.returncode = 0) → sie = true → r.stderr ≠ "" →
      process_output tyName command r pp check sie =
        .error (.stderr (stderr_msg tyName command r) (some r)))
    ∧ ((check = true → r.returncode = 0) → (sie = true → r.stderr = "") →
      (∀ f, pp = some f →
        process_output tyName command r pp check sie =
          .ok { r with processed := some (f r.stdout) })
      ∧ (pp = none → process_output tyName command r pp check sie = .ok r)) := by
  refine ⟨?_, ?_, ?_⟩
  · intro hc hrc
    simp [process_output, hc, hrc]
  · intro hc hs hstderr
    have hrc : ¬ (check = true ∧ r.returncode ≠ 0) := by
      rintro ⟨h1, h2⟩; exact h2 (hc h1)
    simp [process_output, hrc, hs, hstderr]
  · intro hc hs
    have hrc : ¬ (check = true ∧ r.returncode ≠ 0) := by
      rintro ⟨h1, h2⟩; exact h2 (hc h1)
    have hse : ¬ (sie = true ∧ r.stderr ≠ "") := by
      rintro ⟨h1, h2⟩; exact h2 (hs h1)
    constructor
    · intro f hf
      simp [process_output, hrc, hse, hf]
    · intro hf
      simp [process_output, hrc, hse, hf]

/-- Witness for C4: with both `check` and `stderr_is_error` set, a result with
exit code 1 and non-empty stderr is reported as `NonZeroReturnCode`, not as
`Stderr`. -/
theorem c4_process_output_order_witness :
    process_output "LocalCommand" "foo" { returncode := 1, stderr := "e" }
        none true true =
      .error (.nonZeroReturnCode
        (nonzero_msg "LocalCommand" "foo" { returncode := 1, stderr := "e" })
        (some { returncode := 1, stderr := "e" })) :=
  (c4_process_output_order "LocalCommand" "foo"
    { returncode := 1, stderr := "e" } none true true).1 rfl (by decide)

/-- C10: `process_output` never modifies the `stdout`, `stderr` or
`returncode` fields: on the success path the output record agrees with the
input on every field except possibly `processed`, and on the raising paths
the result attached to the error is the unmodified input record. -/
theorem c10_process_output_frame (tyName command : String) (r : Result)
    (pp : Option (String → String)) (check sie : Bool) :
    (∀ r', process_output tyName command r pp check sie = .ok r' →
      r'.stdout = r.stdout ∧ r'.stderr = r.stderr ∧ r'.returncode = r.returncode
      ∧ r'.attempts = r.attempts ∧ r'.repeat_messages = r.repeat_messages
      ∧ (r' = r ∨ ∃ f, pp = some f ∧ r' = { r with processed := some (f r.stdout) }))
    ∧ (∀ e, process_output tyName command r pp check sie = .error e →
      e.resultOf = some r) := by
  constructor
  · intro r' h
    unfold process_output at h
    split at h
    · exact absurd h (by simp)
    · split at h
      · exact absurd h (by simp)
      · match hpp : pp with
        | some f =>
          simp only [Except.ok.injEq] at h
          subst h
          exact ⟨rfl, rfl, rfl, rfl, rfl, Or.inr ⟨f, rfl, rfl⟩⟩
        | none =>
          simp only [Except.ok.injEq] at h
          subst h
          exact ⟨rfl, rfl, rfl, rfl, rfl, Or.inl rfl⟩
  · intro e h
    unfold process_output at h
    split at h
    · simp only [Except.error.injEq] at h
      subst h; rfl
    · split at h
      · simp only [Except.error.injEq] at h
        subst h; rfl
      · match hpp : pp with
        | some f => exact absurd h (by simp)
        | none => exact absurd h (by simp)

/-- Witness for C10: on the `NonZeroReturnCode` raising path the attached
result is the unmodified input record. -/
theorem c10_process_output_frame_witness :
    LrcmdError.resultOf
      (.nonZeroReturnCode
        (nonzero_msg "LocalCommand" "c" { returncode := 2, stdout := "s" })
        (some { returncode := 2, stdout := "s" })) =
      some { returncode := 2, stdout := "s" } :=
  (c10_process_output_frame "LocalCommand" "c" { returncode := 2, stdout := "s" }
    none true false).2 _ rfl

deriving instance DecidableEq for Except

/-- `CommandBase.maximum_wait_time` (`core.py`): the maximum wait time the
documentation promises before the command gives up. -/
def maximum_wait_time (attempts wait : Nat) : Nat :=
  (2 ^ (attempts - 1) - 1) * wait

/-- The failure log line of `execute_repeat`:
`f"Attempt {attempts-attempts_left}/{attempts} failed.\n  {type(e).__name__}:
{e}\n  Retrying after {sleep_time} seconds."`. -/
def attempt_failed_msg (k attempts : Nat) (e : LrcmdError) (sleep_time : Nat) :
    String :=
  "Attempt " ++ toString k ++ "/" ++ toString attempts ++ " failed."
    ++ "\n  " ++ e.typeName ++ ": " ++ e.message
    ++ "\n  Retrying after " ++ toString sleep_time ++ " seconds."

/-- The success log line of `execute_repeat`. -/
def attempt_succeeded_msg (k attempts slept_time : Nat) : String :=
  "Attempt " ++ toString k ++ "/" ++ toString attempts ++ " succeeded after "
    ++ toString slept_time ++ " seconds."

/-- The final log line of `execute_repeat` when all attempts failed. -/
def exhausted_msg (attempts : Nat) : String :=
  "Exhausted after " ++ toString attempts ++ " attempts."

/-- The `while attempts_left:` loop of `CommandBase.execute_repeat`
(`core.py`), one recursive call per iteration, on the loop state
`(attempts_left, sleep_time, slept_time, repeat_messages, sleeps)`. `execf k`
is the outcome of the `k`-th `self.execute(...)` call (1-based); `sleeps`
records the argument of every `time.sleep` call, in order. Note that the
source sleeps `sleep(wait)` while it accumulates and doubles the separate
variable `sleep_time` that only feeds the log and the `slept_time` counter.
`__repeat_message` appends each line plus a newline. The `0` case is the
`while`'s `else:` clause, which raises `RepeatedExecutionFailed` (constructed
without a `result=` argument, hence `none`). -/
def execute_repeat_aux (execf : Nat → Except LrcmdError Result)
    (attempts wait : Nat) :
    Nat → Nat → Nat → String → List Nat →
      Except LrcmdError Result × List Nat × String
  | 0, _, _, msgs, sleeps =>
    let msgs2 := msgs ++ exhausted_msg attempts ++ "\n"
    (.error (.repeatedExecutionFailed ("\n" ++ msgs2) none), sleeps, msgs2)
  | al + 1, sleep_time, slept_time, msgs, sleeps =>
    let k := attempts - al
    match execf k with
    | .ok r =>
      let msgs2 := msgs ++ attempt_succeeded_msg k attempts slept_time ++ "\n"
      (.ok { r with repeat_messages := some msgs2, attempts := some k },
       sleeps, msgs2)
    | .error e =>
      let msgs2 := msgs ++ attempt_failed_msg k attempts e sleep_time ++ "\n"
      if al = 0 then
        execute_repeat_aux execf attempts wait al sleep_time slept_time
          msgs2 sleeps
      else
        execute_repeat_aux execf attempts wait al (sleep_time * 2)
          (slept_time + sleep_time) msgs2 (sleeps ++ [wait])

/-- `CommandBase.execute_repeat` (`core.py`): initial state
`attempts_left = attempts`, `sleep_time = wait`, `slept_time = 0`,
`repeat_messages = ''`, no sleeps yet. Returns the outcome together with the
recorded sleep durations and the accumulated `repeat_messages`. -/
def execute_repeat (execf : Nat → Except LrcmdError Result)
    (attempts wait : Nat) : Except LrcmdError Result × List Nat × String :=
  execute_repeat_aux execf attempts wait attempts wait 0 "" []

/-- Is the outcome a raised `RepeatedExecutionFailed`? -/
def is_repeated_execution_failed : Except LrcmdError Result → Bool
  | .error (.repeatedExecutionFailed _ _) => true
  | _ => false

/-- Is the outcome a raised `ValueError`? -/
def is_value_error : Except LrcmdError Result → Bool
  | .error (.valueError _) => true
  | _ => false

/-- When every attempt fails, the loop sleeps `wait` seconds between
consecutive attempts (`attempts_left - 1` times from loop state
`attempts_left`) and ends in `RepeatedExecutionFailed` with no result
attached. -/
theorem execute_repeat_aux_fail (execf : Nat → Except LrcmdError Result)
    (attempts wait : Nat) (hfail : ∀ k, ∃ e, execf k = .error e) :
    ∀ al st slt msgs sleeps, ∃ M,
      execute_repeat_aux execf attempts wait al st slt msgs sleeps =
        (.error (.repeatedExecutionFailed ("\n" ++ M) none),
         sleeps ++ List.replicate (al - 1) wait, M) := by
  intro al
  induction al with
  | zero =>
    intro st slt msgs sleeps
    exact ⟨msgs ++ exhausted_msg attempts ++ "\n", by simp [execute_repeat_aux]⟩
  | succ al ih =>
    intro st slt msgs sleeps
    obtain ⟨e, he⟩ := hfail (attempts - al)
    by_cases hal : al = 0
    · subst hal
      refine ⟨msgs ++ attempt_failed_msg (attempts - 0) attempts e st ++ "\n"
        ++ exhausted_msg attempts ++ "\n", ?_⟩
      simp only [Nat.sub_zero] at he ⊢
      simp [execute_repeat_aux, he, String.append_assoc]
    · obtain ⟨M, hM⟩ := ih (st * 2) (slt + st)
        (msgs ++ attempt_failed_msg (attempts - al) attempts e st ++ "\n")
        (sleeps ++ [wait])
      refine ⟨M, ?_⟩
      simp only [execute_repeat_aux, he, hal, if_false]
      rw [hM]
      have hrep : List.replicate (al + 1 - 1) wait =
          wait :: List.replicate (al - 1) wait := by
        have : al + 1 - 1 = (al - 1) + 1 := by omega
        rw [this, List.replicate_succ]
      rw [hrep, List.append_assoc]
      rfl

/-- C1: for a command failing on every attempt, the recorded sleeps are
`replicate (n-1) w` — the constant `w`, not the doubling schedule — so the
total slept time is `(n-1)·w`; at `attempts = 3, wait = 1` this total is `2`,
differing from the `(2^(n-1)-1)·w = 3` that the claim (and the code's own
`maximum_wait_time` and docstring table) state. -/
theorem c1_backoff_sleeps_constant :
    (∀ n w e,
      (execute_repeat (fun _ => .error e) n w).2.1 = List.replicate (n - 1) w
      ∧ ((execute_repeat (fun _ => .error e) n w).2.1).sum = (n - 1) * w)
    ∧ ((execute_repeat (fun _ => .error (.otherError "fail")) 3 1).2.1).sum
        ≠ maximum_wait_time 3 1 := by
  have key : ∀ n w (e : LrcmdError),
      (execute_repeat (fun _ => .error e) n w).2.1 =
        List.replicate (n - 1) w := by
    intro n w e
    obtain ⟨M, hM⟩ := execute_repeat_aux_fail (fun _ => .error e) n w
      (fun _ => ⟨e, rfl⟩) n w 0 "" []
    rw [execute_repeat, hM]
    simp
  refine ⟨fun n w e => ⟨key n w e, ?_⟩, ?_⟩
  · rw [key n w e]
    simp [List.sum_replicate, smul_eq_mul]
  · rw [key 3 1 (.otherError "fail")]
    decide

/-- The claim that errors other than the three execution-layer/checker kinds
propagate immediately out of `execute_repeat` is false: a `ValueError` raised
on every attempt (`attempts = 2`) is caught, and the loop ends by raising
`RepeatedExecutionFailed`, not the `ValueError`. -/
theorem c2_counterexample :
    is_repeated_execution_failed
        (execute_repeat (fun _ => .error (.valueError "malformed")) 2 0).1
      = true
    ∧ is_value_error
        (execute_repeat (fun _ => .error (.valueError "malformed")) 2 0).1
      = false := by
  obtain ⟨M, hM⟩ := execute_repeat_aux_fail
    (fun _ => .error (.valueError "malformed")) 2 0
    (fun _ => ⟨.valueError "malformed", rfl⟩) 2 0 0 "" []
  have h2 : execute_repeat (fun _ => .error (.valueError "malformed")) 2 0 =
      execute_repeat_aux (fun _ => .error (.valueError "malformed")) 2 0 2 0 0
        "" [] := rfl
  rw [h2, hM]
  exact ⟨rfl, rfl⟩

/-- C2 (amended): `execute_repeat` catches every error raised inside an
attempt — the execution-layer and checker kinds as well as any other error,
e.g. one raised by a post-processor — logs it, and raises
`RepeatedExecutionFailed` carrying the accumulated log once attempts are
exhausted; no error propagates immediately. -/
theorem c2_catches_all_errors (execf : Nat → Except LrcmdError Result)
    (n w : Nat) (hfail : ∀ k, ∃ e, execf k = .error e) :
    ∃ M, execute_repeat execf n w =
      (.error (.repeatedExecutionFailed ("\n" ++ M) none),
       List.replicate (n - 1) w, M) := by
  obtain ⟨M, hM⟩ := execute_repeat_aux_fail execf n w hfail n w 0 "" []
  refine ⟨M, ?_⟩
  rw [execute_repeat, hM]
  simp

/-- Witness for C2's amended theorem: two attempts both raising a generic
`Exception` end in `RepeatedExecutionFailed`. -/
theorem c2_catches_all_errors_witness :
    is_repeated_execution_failed
        (execute_repeat (fun _ => .error (.otherError "boom")) 2 0).1 = true := by
  obtain ⟨M, hM⟩ := c2_catches_all_errors (fun _ => .error (.otherError "boom"))
    2 0 (fun _ => ⟨.otherError "boom", rfl⟩)
  rw [hM]
  rfl

/-- From loop state `attempts_left = al` (next attempt number
`n - al + 1`), if the attempts up to `k - 1` fail and attempt `k ≤ n`
succeeds with `r`, the loop returns `r` with the attempt count `k` recorded,
having slept exactly once per failed attempt. -/
theorem execute_repeat_aux_succ (execf : Nat → Except LrcmdError Result)
    (n wait k : Nat) (r : Result) (hsucc : execf k = .ok r) :
    ∀ al, al ≤ n → n - al + 1 ≤ k → k ≤ n →
      (∀ j, n - al + 1 ≤ j → j < k → ∃ e, execf j = .error e) →
      ∀ st slt msgs sleeps, ∃ M,
        execute_repeat_aux execf n wait al st slt msgs sleeps =
          (.ok { r with attempts := some k, repeat_messages := some M },
           sleeps ++ List.replicate (k + al - n - 1) wait, M) := by
  intro al
  induction al with
  | zero =>
    intro _ hk1 hk2 _ st slt msgs sleeps
    omega
  | succ al ih =>
    intro hal hk1 hk2 hfail st slt msgs sleeps
    have hattempt : n - (al + 1) + 1 = n - al := by omega
    by_cases hkk : n - al = k
    · refine ⟨msgs ++ attempt_succeeded_msg (n - al) n slt ++ "\n", ?_⟩
      have hcount : k + (al + 1) - n - 1 = 0 := by omega
      rw [hcount]
      simp only [execute_repeat_aux, hkk, hsucc, List.replicate_zero,
        List.append_nil]
    · have hklt : n - al < k := by omega
      obtain ⟨e, he⟩ := hfail (n - al) (by omega) hklt
      have halne : ¬ al = 0 := by omega
      obtain ⟨M, hM⟩ := ih (by omega) (by omega) hk2
        (fun j h1 h2 => hfail j (by omega) h2) (st * 2) (slt + st)
        (msgs ++ attempt_failed_msg (n - al) n e st ++ "\n") (sleeps ++ [wait])
      refine ⟨M, ?_⟩
      simp only [execute_repeat_aux, he, halne, if_false]
      rw [hM]
      have hcount : k + (al + 1) - n - 1 = (k + al - n - 1) + 1 := by omega
      rw [hcount, List.replicate_succ, List.append_assoc]
      rfl

/-- C5: if the attempts before `k` all fail and the `k`-th attempt
(`1 ≤ k ≤ n`) succeeds with result `r`, `execute_repeat` with `n` attempts
returns right after attempt `k`: the returned result is `r` with
`attempts = k` and the accumulated log recorded, and exactly `k - 1` sleeps
were performed (one per preceding failure, none after the success). -/
theorem c5_success_returns_immediately (execf : Nat → Except LrcmdError Result)
    (n wait k : Nat) (r : Result) (h1 : 1 ≤ k) (h2 : k ≤ n)
    (hfail : ∀ j, 1 ≤ j → j < k → ∃ e, execf j = .error e)
    (hsucc : execf k = .ok r) :
    ∃ M, execute_repeat execf n wait =
      (.ok { r with attempts := some k, repeat_messages := some M },
       List.replicate (k - 1) wait, M) := by
  obtain ⟨M, hM⟩ := execute_repeat_aux_succ execf n wait k r hsucc n
    (Nat.le_refl n) (by omega) h2 (fun j hj1 hj2 => hfail j (by omega) hj2)
    wait 0 "" []
  refine ⟨M, ?_⟩
  rw [execute_repeat, hM]
  have : k + n - n - 1 = k - 1 := by omega
  rw [this]
  simp

/-- Witness for C5: a command that fails on its first attempt and succeeds on
its second, run with `attempts = 3`, returns with `Result.attempts = 2` after
a single sleep. -/
theorem c5_success_returns_immediately_witness :
    ((execute_repeat
        (fun j => if j = 1 then .error (.nonZeroReturnCode "nz" none)
                  else .ok { stdout := "ok" }) 3 5).2.1 = [5])
    ∧ ∃ rm, (execute_repeat
        (fun j => if j = 1 then .error (.nonZeroReturnCode "nz" none)
                  else .ok { stdout := "ok" }) 3 5).1 =
      .ok { stdout := "ok", attempts := some 2, repeat_messages := some rm } := by
  obtain ⟨M, hM⟩ := c5_success_returns_immediately
    (fun j => if j = 1 then .error (.nonZeroReturnCode "nz" none)
              else .ok { stdout := "ok" }) 3 5 2 { stdout := "ok" }
    (by omega) (by omega)
    (fun j hj1 hj2 => by
      have : j = 1 := by omega
      subst this
      exact ⟨.nonZeroReturnCode "nz" none, rfl⟩)
    rfl
  rw [hM]
  exact ⟨rfl, ⟨M, rfl⟩⟩

/-- The single-quote character (codepoint 39), written by codepoint. -/
def singleQuote : Char := Char.ofNat 39

/-- A character `shlex.quote` considers safe: ASCII alphanumerics, `_`, and
the punctuation `@ % + = : , . / -` (the complement of the stdlib pattern
`_find_unsafe` with `re.ASCII`). -/
def shlex_quote_safe_char (c : Char) : Bool :=
  c.isAlphanum || c = '_' || c = '@' || c = '%' || c = '+' || c = '='
    || c = ':' || c = ',' || c = '.' || c = '/' || c = '-'

/-- `str.replace(s, "'", "'\x22'\x22'")` as called by `shlex.quote`: the
pattern is the single character `'`, so the replacement is character-wise. -/
def replace_single_quotes (s : String) : String :=
  ⟨(s.data.map fun c =>
      if c = singleQuote then ("'" ++ "\x22" ++ "'" ++ "\x22" ++ "'").data
      else [c]).flatten⟩

/-- `shlex.quote` from the Python standard library: empty strings become
`''`, strings of safe characters are returned as is, anything else is
wrapped in single quotes with every embedded single quote replaced by
`'` `"` `'` `"` `'`. -/
def shlex_quote (s : String) : String :=
  if s = "" then "''"
  else if s.data.all shlex_quote_safe_char then s
  else "'" ++ replace_single_quotes s ++ "'"

/-- An opaque handle for an established paramiko `Connection`, with the
`label` (`"username@login_node"`) the connection carries. -/
structure Session where
  sid : Nat
  label : String
deriving DecidableEq, Repr

/-- The state a `RemoteCommand` object holds after `__init__`. -/
structure RemoteCommand where
  connection : Session
  command : String
  working_directory : Option String
deriving DecidableEq, Repr

/-- `RemoteCommand.__init__` (`remote.py`): stores the connection and, when
`self.working_directory` is truthy (not `None` and not the empty string),
replaces the command with
`f"cd {shlex.quote(self.working_directory)} && {self.command}"`. -/
def RemoteCommand.init (connection : Session) (command : String)
    (working_directory : Option String) : RemoteCommand :=
  let base : RemoteCommand :=
    { connection := connection, command := command,
      working_directory := working_directory }
  match working_directory with
  | some d =>
    if d = "" then base
    else { base with command := "cd " ++ shlex_quote d ++ " && " ++ command }
  | none => base

/-- C8: a remote command built with a non-empty working directory `d` runs
the original command prefixed by `cd <shlex.quote d> && `; with no working
directory the command string is unchanged. -/
theorem c8_remote_prefixes_quoted_cd (conn : Session) (cmd d : String)
    (hd : d ≠ "") :
    (RemoteCommand.init conn cmd (some d)).command =
      "cd " ++ shlex_quote d ++ " && " ++ cmd
    ∧ (RemoteCommand.init conn cmd none).command = cmd := by
  constructor
  · simp [RemoteCommand.init, hd]
  · simp [RemoteCommand.init]

/-- Witness for C8: a directory with a space is quoted, so the executed
string is `cd 'my dir' && ls -l`. -/
theorem c8_remote_prefixes_quoted_cd_witness :
    (RemoteCommand.init ⟨0, "u@h"⟩ "ls -l" (some "my dir")).command =
      "cd 'my dir' && ls -l" := by
  have h := (c8_remote_prefixes_quoted_cd ⟨0, "u@h"⟩ "ls -l" "my dir"
    (by decide)).1
  rw [h]
  decide

/-- The whitespace characters of `shlex` (`shlex.whitespace = " \t\r\n"`). -/
def is_shlex_whitespace (c : Char) : Bool :=
  c = ' ' || c = '\t' || c = '\r' || c = '\n'

/-- Lexer states of `shlex` in POSIX mode with `whitespace_split = True`,
as driven by `shlex.split`: outside quotes, after an escape character
outside quotes, inside single quotes, inside double quotes, and after an
escape character inside double quotes. -/
inductive LexState where
  | norm
  | esc
  | single
  | double
  | descD
deriving DecidableEq, Repr

/-- `shlex.read_token` in POSIX mode with `whitespace_split = True` and
`commenters = ""` (the configuration `shlex.split` uses), one recursive call
per input character. `cur` is the token being accumulated (`none` when no
token has started, so that quotes can produce empty tokens); `acc` the
finished tokens. Single quotes are fully literal; inside double quotes a
backslash escapes only `"` and `\\` and is otherwise kept; outside quotes a
backslash escapes any character. End of input inside a quote raises
`ValueError("No closing quotation")`, after an escape character
`ValueError("No escaped character")`. -/
def shlex_split_aux :
    List Char → LexState → Option (List Char) → List (List Char) →
      Except LrcmdError (List (List Char))
  | [], .norm, cur, acc =>
    match cur with
    | some t => .ok (acc ++ [t])
    | none => .ok acc
  | [], .esc, _, _ => .error (.valueError "No escaped character")
  | [], .descD, _, _ => .error (.valueError "No escaped character")
  | [], .single, _, _ => .error (.valueError "No closing quotation")
  | [], .double, _, _ => .error (.valueError "No closing quotation")
  | c :: cs, .norm, cur, acc =>
    if is_shlex_whitespace c then
      match cur with
      | some t => shlex_split_aux cs .norm none (acc ++ [t])
      | none => shlex_split_aux cs .norm none acc
    else if c = singleQuote then
      shlex_split_aux cs .single (some (cur.getD [])) acc
    else if c = '"' then
      shlex_split_aux cs .double (some (cur.getD [])) acc
    else if c = '\\' then
      shlex_split_aux cs .esc (some (cur.getD [])) acc
    else
      shlex_split_aux cs .norm (some (cur.getD [] ++ [c])) acc
  | c :: cs, .esc, cur, acc =>
    shlex_split_aux cs .norm (some (cur.getD [] ++ [c])) acc
  | c :: cs, .single, cur, acc =>
    if c = singleQuote then
      shlex_split_aux cs .norm cur acc
    else
      shlex_split_aux cs .single (some (cur.getD [] ++ [c])) acc
  | c :: cs, .double, cur, acc =>
    if c = '"' then
      shlex_split_aux cs .norm cur acc
    else if c = '\\' then
      shlex_split_aux cs .descD cur acc
    else
      shlex_split_aux cs .double (some (cur.getD [] ++ [c])) acc
  | c :: cs, .descD, cur, acc =>
    if c = '"' ∨ c = '\\' then
      shlex_split_aux cs .double (some (cur.getD [] ++ [c])) acc
    else
      shlex_split_aux cs .double (some (cur.getD [] ++ ['\\', c])) acc

/-- `shlex.split` from the Python standard library (POSIX mode). -/
def shlex_split (s : String) : Except LrcmdError (List String) :=
  (shlex_split_aux s.data .norm none []).map (fun ts => ts.map fun t => ⟨t⟩)

/-- The Python value passed as the `command` argument of
`LocalCommand.__init__`, which type-checks it with `isinstance(..., str)`. -/
inductive PyArg where
  | str (s : String)
  | intVal (n : Int)
  | listVal (xs : List String)
  | noneVal
deriving DecidableEq, Repr

/-- The state a `LocalCommand` object holds after a successful `__init__`. -/
structure LocalCommand where
  command : List String
  working_directory : Option String
deriving DecidableEq, Repr

/-- `LocalCommand.__init__` (`local.py`): a `str` command is tokenized with
`shlex.split` (whose `ValueError` propagates), anything else raises
`TypeError('Expecting "str" for command.')`. -/
def LocalCommand.init (command : PyArg) (working_directory : Option String) :
    Except LrcmdError LocalCommand :=
  match command with
  | .str s =>
    (shlex_split s).map fun toks =>
      { command := toks, working_directory := working_directory }
  | _ => .error (.typeError "Expecting \x22str\x22 for command.")

/-- Inside single quotes the lexer copies characters verbatim until the
closing quote and then returns to the normal state. -/
theorem shlex_split_aux_single_literal (l : List Char)
    (hl : ∀ c ∈ l, c ≠ singleQuote) :
    ∀ rest t acc,
      shlex_split_aux (l ++ singleQuote :: rest) .single (some t) acc =
        shlex_split_aux rest .norm (some (t ++ l)) acc := by
  induction l with
  | nil =>
    intro rest t acc
    simp [shlex_split_aux]
  | cons c l ih =>
    intro rest t acc
    have hc : c ≠ singleQuote := hl c (List.mem_cons_self c l)
    have hl' : ∀ c ∈ l, c ≠ singleQuote := fun x hx => hl x (List.mem_cons_of_mem c hx)
    simp only [List.cons_append, shlex_split_aux, hc, if_false,
      Option.getD_some, List.append_eq]
    rw [ih hl' rest (t ++ [c]) acc]
    simp

/-- C9: `LocalCommand.__init__` raises `TypeError` for every non-string
command; for a string command it stores the `shlex.split` tokenization; and
shlex word-splitting keeps a single-quoted segment as one argument. -/
theorem c9_local_init_tokenizes (wd : Option String) :
    (∀ a : PyArg, (∀ s, a ≠ .str s) →
      LocalCommand.init a wd = .error (.typeError "Expecting \x22str\x22 for command."))
    ∧ (∀ s, LocalCommand.init (.str s) wd =
      (shlex_split s).map fun toks =>
        { command := toks, working_directory := wd })
    ∧ (∀ q : String, (∀ c ∈ q.data, c ≠ singleQuote) →
      shlex_split ("'" ++ q ++ "'") = .ok [q]) := by
  refine ⟨?_, fun s => rfl, ?_⟩
  · intro a ha
    match a with
    | .str s => exact absurd rfl (ha s)
    | .intVal n => rfl
    | .listVal xs => rfl
    | .noneVal => rfl
  · intro q hq
    have hdata : ("'" ++ q ++ "'").data = singleQuote :: (q.data ++ [singleQuote]) := by
      simp [String.data_append]
      rfl
    unfold shlex_split
    rw [hdata]
    have hstep :
        shlex_split_aux (singleQuote :: (q.data ++ [singleQuote])) .norm none [] =
          shlex_split_aux (q.data ++ singleQuote :: []) .single (some []) [] := by
      simp [shlex_split_aux, is_shlex_whitespace, singleQuote]
    rw [hstep, shlex_split_aux_single_literal q.data hq [] [] []]
    simp [shlex_split_aux]
    rfl

/-- Witness for C9: the single-quoted segment `b c` of `a 'b c'` is kept as
one argument. -/
theorem c9_local_init_tokenizes_witness :
    shlex_split ("'" ++ "b c" ++ "'") = .ok ["b c"] :=
  (c9_local_init_tokenizes none).2.2 "b c" (by decide)

/-- The outcome of one `subprocess.run` call: either `TimeoutExpired` or a
completed process with captured stdout, stderr and return code. -/
inductive ProcOutcome where
  | timeout
  | completed (stdout stderr : String) (returncode : Int)
deriving DecidableEq, Repr

/-- The outcome of one `paramiko` `exec_command` plus channel reads: either a
channel-level `socket.timeout` or the captured stdout, stderr and exit
status. -/
inductive RemoteOutcome where
  | timeout
  | completed (stdout stderr : String) (returncode : Int)
deriving DecidableEq, Repr

/-- `f"{self.command}"` for the token list a `LocalCommand` stores: the
Python list repr, e.g. `['ls', '-l']`. -/
def py_repr_list (xs : List String) : String :=
  "[" ++ String.intercalate ", " (xs.map fun x => "'" ++ x ++ "'") ++ "]"

/-- `f"{timeout}"` for an optional number of seconds. -/
def py_str_opt_nat : Option Nat → String
  | none => "None"
  | some n => toString n

/-- `LocalCommand.execute` (`local.py`) with the `subprocess.run` outcome
supplied by the `proc` oracle. On `TimeoutExpired` it raises
`CommandTimedOut` with `result=self.result`, which at that point is the
fresh `SimpleNamespace()` (modelled as the default record); otherwise it
populates the result and runs `process_output`. -/
def LocalCommand.execute (lc : LocalCommand) (proc : ProcOutcome)
    (post_processor : Option (String → String)) (check stderr_is_error : Bool)
    (timeout : Option Nat) : Except LrcmdError Result :=
  match proc with
  | .timeout =>
    .error (.commandTimedOut
      ("Local command '" ++ py_repr_list lc.command ++ "' timed out after "
        ++ py_str_opt_nat timeout ++ "s.")
      (some {}))
  | .completed out err rc =>
    process_output "LocalCommand" (py_repr_list lc.command)
      { stdout := out, stderr := err, returncode := rc }
      post_processor check stderr_is_error

/-- `RemoteCommand.execute` (`remote.py`) with the channel outcome supplied
by the `chan` oracle. On a channel timeout it raises `CommandTimedOut`
without a `result=` argument (hence `none`); otherwise it populates the
result from the channel and runs `process_output`. -/
def RemoteCommand.execute (rc : RemoteCommand) (chan : RemoteOutcome)
    (post_processor : Option (String → String)) (check stderr_is_error : Bool)
    (timeout : Option Nat) : Except LrcmdError Result :=
  match chan with
  | .timeout =>
    .error (.commandTimedOut
      ("Remote command '" ++ rc.command ++ "' timed out after "
        ++ py_str_opt_nat timeout ++ "s.\n  on " ++ rc.connection.label)
      none)
  | .completed out err code =>
    process_output "RemoteCommand" rc.command
      { stdout := out, stderr := err, returncode := code }
      post_processor check stderr_is_error

/-- The `result` attribute of a raised error (`none` when nothing was
raised). -/
def raised_result : Except LrcmdError Result → Option (Option Result)
  | .error e => some e.resultOf
  | .ok _ => none

/-- C3 fails on the code: the remote `CommandTimedOut` and the
`RepeatedExecutionFailed` raised after exhaustion are constructed without a
`result=` argument, so they carry `result = None` although a (possibly
partial) result object was available; by contrast the local
`CommandTimedOut` does attach the result, as `process_output`'s two error
kinds always do. -/
theorem c3_result_not_always_attached :
    raised_result
        (RemoteCommand.execute (RemoteCommand.init ⟨0, "u@h"⟩ "ls" none)
          .timeout none true false (some 5)) = some none
    ∧ raised_result
        (execute_repeat (fun _ => .error (.nonZeroReturnCode "m" none)) 1 0).1
      = some none
    ∧ raised_result
        (LocalCommand.execute { command := ["ls"], working_directory := none }
          .timeout none true false (some 5)) = some (some {})
    ∧ raised_result
        (process_output "LocalCommand" "['ls']" { returncode := 1 } none true
          false)
      = some (some { returncode := 1 }) := by
  refine ⟨by decide, ?_, by decide, by decide⟩
  obtain ⟨M, hM⟩ := execute_repeat_aux_fail
    (fun _ => .error (.nonZeroReturnCode "m" none)) 1 0
    (fun _ => ⟨.nonZeroReturnCode "m" none, rfl⟩) 1 0 0 "" []
  have h1 : execute_repeat (fun _ => .error (.nonZeroReturnCode "m" none)) 1 0
      = execute_repeat_aux (fun _ => .error (.nonZeroReturnCode "m" none))
          1 0 1 0 0 "" [] := rfl
  rw [h1, hM]
  rfl

/-- The command object `run` builds: a `LocalCommand` when no connection was
given, a `RemoteCommand` otherwise. -/
inductive CmdObj where
  | loc (c : LocalCommand)
  | rem (c : RemoteCommand)
deriving DecidableEq, Repr

/-- One `cmd.execute(...)` call on the object `run` built, the external
world supplied by the oracles: `localWorld k` is the `subprocess.run`
outcome of the `k`-th attempt, `remoteWorld s k` the channel outcome of the
`k`-th attempt over session `s`. -/
def cmd_execute (localWorld : Nat → ProcOutcome)
    (remoteWorld : Session → Nat → RemoteOutcome) (o : CmdObj) (k : Nat)
    (post_processor : Option (String → String)) (check stderr_is_error : Bool)
    (timeout : Option Nat) : Except LrcmdError Result :=
  match o with
  | .loc c => c.execute (localWorld k) post_processor check stderr_is_error
      timeout
  | .rem c => c.execute (remoteWorld c.connection k) post_processor check
      stderr_is_error timeout

/-- `run` (`__init__.py`): builds a `LocalCommand` when `connection is None`
and a `RemoteCommand` bound to `connection` otherwise (a constructor error
propagates), then calls `execute` once when `attempts == 1` and
`execute_repeat` otherwise. The second component is the list of sleeps
performed (empty for the single-shot path). -/
def run (localWorld : Nat → ProcOutcome)
    (remoteWorld : Session → Nat → RemoteOutcome) (command : String)
    (connection : Option Session) (working_directory : Option String)
    (check stderr_is_error : Bool) (timeout : Option Nat)
    (post_processor : Option (String → String)) (attempts wait : Nat) :
    Except LrcmdError Result × List Nat :=
  let cmdE : Except LrcmdError CmdObj :=
    match connection with
    | none => (LocalCommand.init (.str command) working_directory).map .loc
    | some conn => .ok (.rem (RemoteCommand.init conn command
        working_directory))
  match cmdE with
  | .error e => (.error e, [])
  | .ok cmd =>
    if attempts = 1 then
      (cmd_execute localWorld remoteWorld cmd 1 post_processor check
        stderr_is_error timeout, [])
    else
      let out := execute_repeat
        (fun k => cmd_execute localWorld remoteWorld cmd k post_processor
          check stderr_is_error timeout) attempts wait
      (out.1, out.2.1)

/-- `RemoteCommand.__init__` stores the given connection unchanged. -/
theorem remote_init_connection (s : Session) (cmd : String)
    (wd : Option String) : (RemoteCommand.init s cmd wd).connection = s := by
  unfold RemoteCommand.init
  match wd with
  | none => rfl
  | some d => by_cases hd : d = "" <;> simp [hd]

/-- C6: `run` uses a `LocalCommand` when the connection argument is absent
and a `RemoteCommand` bound to the given session otherwise; with
`attempts = 1` it delegates to a single `execute` call (no sleeps), and with
`attempts > 1` to `execute_repeat` with the given attempts and wait. -/
theorem c6_run_dispatch (lw : Nat → ProcOutcome)
    (rw : Session → Nat → RemoteOutcome) (command : String)
    (wd : Option String) (check sie : Bool) (timeout : Option Nat)
    (pp : Option (String → String)) (attempts wait : Nat) :
    (attempts = 1 →
      (run lw rw command none wd check sie timeout pp attempts wait =
        (match LocalCommand.init (.str command) wd with
         | .error e => (.error e, [])
         | .ok c => (c.execute (lw 1) pp check sie timeout, []))
      ∧ ∀ s, run lw rw command (some s) wd check sie timeout pp attempts wait
          = ((RemoteCommand.init s command wd).execute (rw s 1) pp check sie
              timeout, [])))
    ∧ (attempts > 1 →
      ((∀ c, LocalCommand.init (.str command) wd = .ok c →
        run lw rw command none wd check sie timeout pp attempts wait =
          ((execute_repeat (fun k => c.execute (lw k) pp check sie timeout)
              attempts wait).1,
           (execute_repeat (fun k => c.execute (lw k) pp check sie timeout)
              attempts wait).2.1))
      ∧ ∀ s, run lw rw command (some s) wd check sie timeout pp attempts wait
          = ((execute_repeat
                (fun k => (RemoteCommand.init s command wd).execute (rw s k)
                  pp check sie timeout) attempts wait).1,
             (execute_repeat
                (fun k => (RemoteCommand.init s command wd).execute (rw s k)
                  pp check sie timeout) attempts wait).2.1))) := by
  constructor
  · intro h1
    subst h1
    constructor
    · match hinit : LocalCommand.init (.str command) wd with
      | .error e => simp [run, hinit, Except.map]
      | .ok c => simp [run, hinit, Except.map, cmd_execute]
    · intro s
      simp [run, cmd_execute, remote_init_connection]
  · intro h1
    have hne : attempts ≠ 1 := by omega
    constructor
    · intro c hinit
      simp [run, hinit, hne, Except.map, cmd_execute]
    · intro s
      simp [run, hne, cmd_execute, remote_init_connection]

/-- Witness for C6: with a session present and `attempts = 1`, `run` is a
single `RemoteCommand.execute` bound to that session, with no sleeps. -/
theorem c6_run_dispatch_witness :
    run (fun _ => .completed "" "" 0) (fun _ _ => .completed "" "" 0) "ls"
        (some ⟨1, "u@h"⟩) (some ".") true false none none 1 0 =
      ((RemoteCommand.init ⟨1, "u@h"⟩ "ls" (some ".")).execute
        ((fun _ _ => RemoteOutcome.completed "" "" 0) (⟨1, "u@h"⟩ : Session) 1)
        none true false none, []) :=
  ((c6_run_dispatch (fun _ => .completed "" "" 0)
    (fun _ _ => .completed "" "" 0) "ls" (some ".") true false none none 1
    0).1 rfl).2 ⟨1, "u@h"⟩

/-- When `process_output` returns without a post-processor, the result is
the unmodified input record, and on the same input the checks pass with any
post-processor, which is applied to stdout and stored in `processed`. -/
theorem process_output_none_ok (ty cmd : String) (r r0 : Result)
    (check sie : Bool)
    (h : process_output ty cmd r none check sie = .ok r0) :
    r0 = r ∧ ∀ f, process_output ty cmd r (some f) check sie =
      .ok { r with processed := some (f r.stdout) } := by
  unfold process_output at h ⊢
  split at h
  · exact absurd h (by simp)
  · split at h
    · exact absurd h (by simp)
    · rename_i hc hs
      simp only [Except.ok.injEq] at h
      refine ⟨h.symm, fun f => ?_⟩
      rw [if_neg hc, if_neg hs]

/-- A `LocalCommand.execute` call that succeeds without a post-processor has
`processed = none`, and the same call with post-processor `f` succeeds with
the same record except `processed = f stdout`. -/
theorem local_execute_pp (c : LocalCommand) (po : ProcOutcome)
    (check sie : Bool) (timeout : Option Nat) (r : Result)
    (f : String → String)
    (h : c.execute po none check sie timeout = .ok r) :
    r.processed = none
    ∧ c.execute po (some f) check sie timeout =
      .ok { r with processed := some (f r.stdout) } := by
  match po with
  | .timeout => exact absurd h (by simp [LocalCommand.execute])
  | .completed out err rc =>
    have h' : process_output "LocalCommand" (py_repr_list c.command)
        { stdout := out, stderr := err, returncode := rc } none check sie =
        .ok r := h
    obtain ⟨hr, hf⟩ := process_output_none_ok _ _ _ _ _ _ h'
    subst hr
    exact ⟨rfl, hf f⟩

/-- A `RemoteCommand.execute` call that succeeds without a post-processor
has `processed = none`, and the same call with post-processor `f` succeeds
with the same record except `processed = f stdout`. -/
theorem remote_execute_pp (c : RemoteCommand) (ro : RemoteOutcome)
    (check sie : Bool) (timeout : Option Nat) (r : Result)
    (f : String → String)
    (h : c.execute ro none check sie timeout = .ok r) :
    r.processed = none
    ∧ c.execute ro (some f) check sie timeout =
      .ok { r with processed := some (f r.stdout) } := by
  match ro with
  | .timeout => exact absurd h (by simp [RemoteCommand.execute])
  | .completed out err rc =>
    have h' : process_output "RemoteCommand" c.command
        { stdout := out, stderr := err, returncode := rc } none check sie =
        .ok r := h
    obtain ⟨hr, hf⟩ := process_output_none_ok _ _ _ _ _ _ h'
    subst hr
    exact ⟨rfl, hf f⟩

/-- A single `cmd.execute` call that succeeds without a post-processor has
`processed = none`, and the same call with post-processor `f` succeeds with
the same record except `processed = f stdout`. -/
theorem cmd_execute_pp (lw : Nat → ProcOutcome)
    (rw : Session → Nat → RemoteOutcome) (o : CmdObj) (k : Nat)
    (check sie : Bool) (timeout : Option Nat) (r : Result)
    (f : String → String)
    (h : cmd_execute lw rw o k none check sie timeout = .ok r) :
    r.processed = none
    ∧ cmd_execute lw rw o k (some f) check sie timeout =
      .ok { r with processed := some (f r.stdout) } := by
  match o with
  | .loc c =>
    exact local_execute_pp c (lw k) check sie timeout r f h
  | .rem c =>
    exact remote_execute_pp c (rw c.connection k) check sie timeout r f h

/-- C7: if `run` without a post-processor succeeds with result `r` (whose
`processed` is then unset), then `run` of the same command in the same world
with post-processor `f` succeeds with the same record except
`processed = f r.stdout` — i.e.
`run(cmd, post_processor=f).processed == f(run(cmd).stdout)`. -/
theorem c7_run_post_processor (lw : Nat → ProcOutcome)
    (rw : Session → Nat → RemoteOutcome) (command : String)
    (conn : Option Session) (wd : Option String) (check sie : Bool)
    (timeout : Option Nat) (f : String → String) (r : Result)
    (h : (run lw rw command conn wd check sie timeout none 1 0).1 = .ok r) :
    r.processed = none
    ∧ (run lw rw command conn wd check sie timeout (some f) 1 0).1 =
      .ok { r with processed := some (f r.stdout) } := by
  match conn with
  | none =>
    match hinit : LocalCommand.init (.str command) wd with
    | .error e =>
      rw [show (run lw rw command none wd check sie timeout none 1 0) =
        (.error e, []) by simp [run, hinit, Except.map]] at h
      exact absurd h (by simp)
    | .ok c =>
      rw [show (run lw rw command none wd check sie timeout none 1 0) =
        (cmd_execute lw rw (.loc c) 1 none check sie timeout, []) by
          simp [run, hinit, Except.map]] at h
      obtain ⟨h1, h2⟩ := cmd_execute_pp lw rw (.loc c) 1 check sie timeout r
        f h
      refine ⟨h1, ?_⟩
      rw [show (run lw rw command none wd check sie timeout (some f) 1 0) =
        (cmd_execute lw rw (.loc c) 1 (some f) check sie timeout, []) by
          simp [run, hinit, Except.map]]
      exact h2
  | some s =>
    rw [show (run lw rw command (some s) wd check sie timeout none 1 0) =
      (cmd_execute lw rw (.rem (RemoteCommand.init s command wd)) 1 none
        check sie timeout, []) by simp [run]] at h
    obtain ⟨h1, h2⟩ := cmd_execute_pp lw rw
      (.rem (RemoteCommand.init s command wd)) 1 check sie timeout r f h
    refine ⟨h1, ?_⟩
    rw [show (run lw rw command (some s) wd check sie timeout (some f) 1 0) =
      (cmd_execute lw rw (.rem (RemoteCommand.init s command wd)) 1 (some f)
        check sie timeout, []) by simp [run]]
    exact h2

/-- Witness for C7: a local run capturing stdout `hello` postprocessed with
string reversal stores the reversed stdout in `processed`. -/
theorem c7_run_post_processor_witness :
    ({ stdout := "hello" } : Result).processed = none
    ∧ (run (fun _ => .completed "hello" "" 0) (fun _ _ => .completed "" "" 0)
        "echo hello" none (some ".") true false none
        (some fun s => s ++ "!") 1 0).1 =
      .ok { ({ stdout := "hello" } : Result) with
        processed := some ("hello" ++ "!") } :=
  c7_run_post_processor (fun _ => .completed "hello" "" 0)
    (fun _ _ => .completed "" "" 0) "echo hello" none (some ".") true false
    none (fun s => s ++ "!") { stdout := "hello" } (by decide)

end Lrcmd
